import Mathlib

set_option maxRecDepth 200000

/-!
Verification development for the httpfileserv HTTP file server.

The definitions below are a shallow embedding of the request-handling core
of the server (src/httpfileserv.c, src/utils.c, src/http_response.c and
src/platform/unix/platform_unix.c).  Byte strings are modelled as
`List Char`; the fixed C buffers appear as explicit `List.take` truncations
at the corresponding buffer sizes; out-parameters and reallocation become
explicit state passing; `malloc`/`realloc` success is an explicit boolean
oracle.  Machine-level details that no claim depends on (the value written
by `sscanf("%2x")` on a non-hex escape, the timezone-dependent output of
`strftime`/`localtime`) are noted in comments at the definition concerned.
-/

namespace HttpFileServ

/-- Buffer size constant from httpfileserv.h: `#define BUFFER_SIZE 1024`. -/
def BUFFER_SIZE : Nat := 1024

/-- Path buffer size constant from httpfileserv.h: `#define MAX_PATH_SIZE 1024`. -/
def MAX_PATH_SIZE : Nat := 1024

/-- Platform path separator from platform.h (`'/'` on the Unix build; the
Windows build uses a backslash). -/
def PATH_SEPARATOR : Char := '/'

/-- Decimal rendering of a natural number, as printf `%d`/`%ld`/`%zu` produce
for the nonnegative values this server prints. -/
def natDigits (n : Nat) : List Char := (Nat.repr n).toList

/-- Whitespace per C `isspace` in the default locale: the separator set used
by `sscanf` `%s` conversions and whitespace directives. -/
def isSpaceChar (c : Char) : Bool :=
  c = ' ' || c = '\t' || c = '\n' || c = '\r' || c = '\x0b' || c = '\x0c'

/-! ## Traversal sanitization (handle_connection, httpfileserv.c lines 290-295)

The C loop is `while ((p = strstr(path, "..")) != NULL) memmove(p, p + 2,
strlen(p + 2) + 1);`: find the leftmost occurrence of the two-character
sequence `..` and delete exactly those two characters, until none remains. -/

/-- Whether the byte string contains the two-character sequence `..`;
models `strstr(path, "..") != NULL`. -/
def hasDotDot : List Char → Bool
  | a :: b :: rest => if a = '.' ∧ b = '.' then true else hasDotDot (b :: rest)
  | _ => false

/-- Delete the leftmost occurrence of `..` (exactly two characters, not
surrounding separators), as one `memmove` iteration of the loop does. -/
def removeFirstDotDot : List Char → List Char
  | a :: b :: rest => if a = '.' ∧ b = '.' then rest else a :: removeFirstDotDot (b :: rest)
  | l => l

/-- Fuel-indexed iteration of the sanitization loop.  Each iteration removes
two characters, so fuel equal to the string's length always suffices; the
fuel only makes the recursion structural. -/
def sanitizeFuel : Nat → List Char → List Char
  | 0, l => l
  | n + 1, l => if hasDotDot l then sanitizeFuel n (removeFirstDotDot l) else l

/-- The complete traversal-sanitization loop: repeatedly delete the leftmost
`..` until none remains. -/
def sanitizePath (l : List Char) : List Char := sanitizeFuel l.length l

/-- Helper for the prefix-preservation lemmas: whether the last character of
the string is not a dot (vacuously true for the empty string). -/
def lastNotDot : List Char → Bool
  | [] => true
  | [c] => decide (c ≠ '.')
  | _ :: b :: rest => lastNotDot (b :: rest)

/-! ## URL decoding (url_decode, src/utils.c) -/

/-- Value of one hexadecimal digit, or `none` for a non-hex character. -/
def hexVal (c : Char) : Option Nat :=
  if '0' ≤ c ∧ c ≤ '9' then some (c.toNat - 48)
  else if 'a' ≤ c ∧ c ≤ 'f' then some (c.toNat - 87)
  else if 'A' ≤ c ∧ c ≤ 'F' then some (c.toNat - 55)
  else none

/-- Byte produced for a `%XY` escape, per `sscanf(str + i + 1, "%2x", &value)`
applied to the two characters after the `%`: two hex digits give
`16*X + Y`, a single leading hex digit gives its value.  When the first
character is not a hex digit the conversion matches nothing and the C code
reads an uninitialized `int`; no claim depends on that byte, and the model
fixes it to `0`. -/
def hexEscapeChar (c1 c2 : Char) : Char :=
  match hexVal c1, hexVal c2 with
  | some h1, some h2 => Char.ofNat (16 * h1 + h2)
  | some h1, none => Char.ofNat h1
  | none, _ => Char.ofNat 0

/-- Body of `url_decode`: one pass over the input; `%` with at least two
following characters (the C guard `str[i] == '%' && i + 2 < len`) consumes
three characters and emits one byte, `+` becomes a space, anything else is
copied, and a `%` fewer than three characters before the end is copied
literally. -/
def urlDecodeList : List Char → List Char
  | [] => []
  | [c] => [if c = '+' then ' ' else c]
  | [c, d] => (if c = '+' then ' ' else c) :: urlDecodeList [d]
  | c :: c1 :: c2 :: rest =>
    if c = '%' then hexEscapeChar c1 c2 :: urlDecodeList rest
    else (if c = '+' then ' ' else c) :: urlDecodeList (c1 :: c2 :: rest)

/-- The full `url_decode` function: a NULL input gives NULL, any other
input gives the decoded string.  The C performs no null check after
`malloc(len + 1)`: on allocation failure it writes through the null
pointer (`decoded[j++] = ...`, `decoded[j] = '\0'`) — undefined behavior
with no value-level outcome to model — and never returns NULL for a
non-null input, so the model covers the defined behavior only, with the
allocation assumed to succeed. -/
def url_decode : Option (List Char) → Option (List Char)
  | none => none
  | some s => some (urlDecodeList s)

/-! ## Request-line parsing (handle_connection, httpfileserv.c line 257)

Models `sscanf(buffer, "%31s %1023s", method, url)`: skip whitespace, read a
first token of at most 31 characters, skip (possibly zero) whitespace, read
a second token of at most 1023 characters; the result is `none` exactly when
fewer than two conversions succeed, i.e. when `sscanf` returns a value
other than 2.  A token longer than the field width is cut at the width and
its remainder starts the next token, exactly as `%31s` leaves the rest of
the word in the input. -/
def parseRequestLine (buf : List Char) : Option (List Char × List Char) :=
  let s1 := buf.dropWhile isSpaceChar
  let tok1 := s1.takeWhile (fun c => !isSpaceChar c)
  if tok1 = [] then none
  else
    let m := tok1.take 31
    let r := (s1.drop m.length).dropWhile isSpaceChar
    let tok2 := r.takeWhile (fun c => !isSpaceChar c)
    if tok2 = [] then none
    else some (m, tok2.take 1023)

/-! ## Path resolution (handle_connection, httpfileserv.c lines 282-295) -/

/-- Models `strcmp(decoded_url, "/") == 0 ? "" : decoded_url + 1`: the target
`/` contributes an empty remainder, any other target is taken from its
second character on. -/
def requestPath (decoded : List Char) : List Char :=
  if decoded = ['/'] then [] else decoded.drop 1

/-- Models `snprintf(path, MAX_PATH_SIZE, "%s%c%s", base_path, PATH_SEPARATOR,
request_path)`: root, separator and remainder concatenated, truncated to
`MAX_PATH_SIZE - 1` bytes by `snprintf`. -/
def rawPath (base decoded : List Char) : List Char :=
  (base ++ PATH_SEPARATOR :: requestPath decoded).take (MAX_PATH_SIZE - 1)

/-- The filesystem path the handler actually accesses: the joined path after
the traversal-sanitization loop has run on it. -/
def resolvePath (base decoded : List Char) : List Char :=
  sanitizePath (rawPath base decoded)

/-! ## HTTP response framing (send_http_status, src/http_response.c) -/

/-- The exact header block `send_http_status` formats: status line,
`Content-Type`, `Content-Length`, `Connection: close`, blank line, in that
order and nothing else. -/
def httpHeader (code : Nat) (reason ctype : List Char) (n : Nat) : List Char :=
  ("HTTP/1.1 ").toList ++ natDigits code ++ ' ' ::
    (reason ++ ("\r\nContent-Type: ").toList ++ ctype ++
      ("\r\nContent-Length: ").toList ++ natDigits n ++
      ("\r\nConnection: close\r\n\r\n").toList)

/-- Bytes `send_http_status` puts on the wire: the header formatted by
`snprintf` into the `BUFFER_SIZE` buffer (hence truncated to
`BUFFER_SIZE - 1` characters), followed by the body.  When header and body
fit the buffer together they are sent in one `send`, otherwise in two; the
bytes received are the same either way. -/
def send_http_status (code : Nat) (reason ctype body : List Char) : List Char :=
  (httpHeader code reason ctype body.length).take (BUFFER_SIZE - 1) ++ body

/-- Canned 400 body from send_400. -/
def body400 : String :=
  "<html><body><h1>400 Bad Request</h1><p>Your browser sent a request that this server could not understand.</p></body></html>"

/-- Canned 404 body from send_404. -/
def body404 : String :=
  "<html><body><h1>404 Not Found</h1><p>The requested resource could not be found.</p></body></html>"

/-- Canned 500 body from send_500. -/
def body500 : String :=
  "<html><body><h1>500 Internal Server Error</h1><p>The server encountered an unexpected condition.</p></body></html>"

/-- Wire bytes of send_500. -/
def wire500 : List Char :=
  send_http_status 500 ("Internal Server Error").toList ("text/html").toList body500.toList

/-! ## The connection handler (handle_connection, httpfileserv.c) -/

/-- Outcome of one handled connection, abstracting which response the
handler sends; the handler sends exactly one response on every path that
parses a request line. -/
inductive ServedResponse where
  | resp400 : ServedResponse
  | resp404 : ServedResponse
  | resp500 : ServedResponse
  | respListing (fsPath urlPath : List Char) : ServedResponse
  | respFile (fsPath : List Char) : ServedResponse
deriving DecidableEq

/-- Abstract filesystem for the handler's `stat` call: `none` means `stat`
fails (404 path), `some isDir` gives the `S_IFDIR` test result. -/
structure FileSystem where
  statKind : List Char → Option Bool

/-- The dispatch logic of `handle_connection` after a successful `recv`:
parse failure gives 400; a method other than exactly `GET` gives 404;
the caller's `if (!decoded_url) send_500` check at line 274 is the `none`
branch of the match (never taken, since `url_decode` returns NULL only for
a NULL input); a failed `stat` on the resolved path gives 404; otherwise a
directory listing or a file transfer. -/
def handle_connection (fs : FileSystem) (base buffer : List Char) :
    ServedResponse :=
  match parseRequestLine buffer with
  | none => ServedResponse.resp400
  | some (m, u) =>
    if m ≠ ("GET").toList then ServedResponse.resp404
    else
      match url_decode (some u) with
      | none => ServedResponse.resp500
      | some decoded =>
        match fs.statKind (resolvePath base decoded) with
        | none => ServedResponse.resp404
        | some true => ServedResponse.respListing (resolvePath base decoded) decoded
        | some false => ServedResponse.respFile (resolvePath base decoded)

/-! ## Directory listings (dir_listing_callback / send_directory_listing,
httpfileserv.c, and platform_list_directory, platform_unix.c) -/

/-- Human-scaled file size exactly as the callback formats it: `%ld B` below
1024 bytes, otherwise `%.1f` of the size divided by the appropriate power of
1024.  `oneDecimalDigits` below reproduces `%.1f` exactly: a size below
2^53 divided by a power of two is exact in double precision, and printf
rounds that exact value to one decimal, ties to even. -/
def oneDecimalDigits (num denom : Nat) : List Char :=
  let t := num * 10
  let q := t / denom
  let r := t % denom
  let rounded :=
    if denom < 2 * r then q + 1
    else if 2 * r < denom then q
    else if q % 2 = 0 then q else q + 1
  natDigits (rounded / 10) ++ '.' :: natDigits (rounded % 10)

/-- The size-column string of a file row (dir_listing_callback lines 66-75):
bytes below 1024, then KB below 1024², then MB below 1024³, else GB. -/
def formatSize (size : Nat) : List Char :=
  if size < 1024 then natDigits size ++ (" B").toList
  else if size < 1024 * 1024 then oneDecimalDigits size 1024 ++ (" KB").toList
  else if size < 1024 * 1024 * 1024 then
    oneDecimalDigits size (1024 * 1024) ++ (" MB").toList
  else oneDecimalDigits size (1024 * 1024 * 1024) ++ (" GB").toList

/-- Modelled from the spec: the size rendering stated in §4.3 — binary
(1024-based) units with one decimal place, "selecting the largest unit such
that the scaled value is < 1024 (bytes → KB → MB → GB)", i.e. the first
unit, from bytes upward, whose scaled value is below 1024, capped at GB. -/
def formatSizeSpec (size : Nat) : List Char :=
  let k := ((List.range 4).find? (fun j => size < 1024 ^ (j + 1))).getD 3
  if k = 0 then natDigits size ++ (" B").toList
  else if k = 1 then oneDecimalDigits size 1024 ++ (" KB").toList
  else if k = 2 then oneDecimalDigits size (1024 * 1024) ++ (" MB").toList
  else oneDecimalDigits size (1024 * 1024 * 1024) ++ (" GB").toList

/-- One directory entry as delivered to the listing callback by
`platform_list_directory`.  The `timestr` field is the
`strftime("%Y-%m-%d %H:%M:%S", localtime(&mtime))` rendering of the entry's
mtime; `localtime` is timezone-dependent, so the formatted string is
carried as data rather than recomputed. -/
structure DirEntry where
  name : List Char
  is_dir : Bool
  size : Nat
  timestr : List Char

/-- The HTML row the callback formats for one entry with
`snprintf(entry_html, BUFFER_SIZE, ...)` (hence truncated to
`BUFFER_SIZE - 1` characters): directories get a folder marker, a trailing
slash on link and name and a `-` size cell; files get a document marker and
the formatted size. -/
def formatEntryRow (e : DirEntry) : List Char :=
  (if e.is_dir then
      ("<tr><td><a href=\"").toList ++ e.name ++
        ("/\"><span class=\"icon\">📁</span> ").toList ++ e.name ++
        ("/</a></td><td class=\"size\">-</td><td class=\"date\">").toList ++
        e.timestr ++ ("</td></tr>").toList
    else
      ("<tr><td><a href=\"").toList ++ e.name ++
        ("\"><span class=\"icon\">📄</span> ").toList ++ e.name ++
        ("</a></td><td class=\"size\">").toList ++ formatSize e.size ++
        ("</td><td class=\"date\">").toList ++ e.timestr ++
        ("</td></tr>").toList).take (BUFFER_SIZE - 1)

/-- The listing buffer state threaded through the callback
(struct dir_listing_data: buffer contents, current size, capacity). -/
structure DirListingData where
  listing : List Char
  listing_size : Nat
  listing_capacity : Nat

/-- One invocation of `dir_listing_callback` (httpfileserv.c lines 50-99):
format the entry row; if appending it plus the terminator would exceed the
capacity, grow the capacity to `capacity * 2 + entry_len` and reallocate —
a failed `realloc` (oracle `allocOk = false`) returns 1 to stop the
listing, modelled as `none`; otherwise append the row. -/
def dir_listing_callback (allocOk : Bool) (e : DirEntry) (d : DirListingData) :
    Option DirListingData :=
  let entry_html := formatEntryRow e
  let entry_len := entry_html.length
  if d.listing_size + entry_len + 1 > d.listing_capacity then
    if allocOk then
      some ⟨d.listing ++ entry_html, d.listing_size + entry_len,
        d.listing_capacity * 2 + entry_len⟩
    else none
  else
    some ⟨d.listing ++ entry_html, d.listing_size + entry_len, d.listing_capacity⟩

/-- The readdir loop of `platform_list_directory` (platform_unix.c lines
83-111): skip the `.` and `..` pseudo-entries, invoke the callback on each
remaining entry, and — exactly as the C does — return 0 (success) both when
the entries are exhausted and when the callback asks to stop. -/
def platform_list_directory_go (allocOk : Nat → Bool) (k : Nat)
    (entries : List DirEntry) (d : DirListingData) : DirListingData × Nat :=
  match entries with
  | [] => (d, 0)
  | e :: rest =>
    if e.name = (".").toList ∨ e.name = ("..").toList then
      platform_list_directory_go allocOk k rest d
    else
      match dir_listing_callback (allocOk k) e d with
      | some d' => platform_list_directory_go allocOk (k + 1) rest d'
      | none => (d, 0)

/-- `platform_list_directory` (Unix): return 1 when `opendir` fails
(oracle `openOk = false`), otherwise run the readdir loop.  `allocOk k`
tells whether the `realloc` performed for the k-th appended entry (if any)
succeeds. -/
def platform_list_directory (openOk : Bool) (allocOk : Nat → Bool)
    (entries : List DirEntry) (d : DirListingData) : DirListingData × Nat :=
  if openOk then platform_list_directory_go allocOk 0 entries d else (d, 1)

/-- Template text before the first `url_path` splice (title position):
the strcat sequence of send_directory_listing lines 364-366. -/
def listingPre1 : String :=
  "<!DOCTYPE html>" ++
  "<html><head><meta charset=\"UTF-8\"><meta name=\"viewport\" content=\"width=device-width, initial-scale=1.0\">" ++
  "<title>Directory: "

/-- Template text between the two `url_path` splices (closing the title,
the style sheet, the theme-toggle script, and the opening of the page body
up to the heading): the strcat sequence of lines 368-418.  Literal braces
and apostrophes of the CSS/JS are written with `\x7b`, `\x7d` and `\x27`
escapes. -/
def listingPre2 : String :=
  "</title>" ++
  "<style>" ++
  ":root\x7b--bg-color:#f9f9f9;--container-bg:#fff;--text-color:#333;--header-color:#444;--border-color:#eee;--hover-color:#f8f8f8;--th-bg:#f5f5f5;--th-color:#666;--link-color:#2563eb;--icon-color:#666;--footer-color:#999;\x7d" ++
  ".dark-mode\x7b--bg-color:#121212;--container-bg:#1e1e1e;--text-color:#e0e0e0;--header-color:#f0f0f0;--border-color:#333;--hover-color:#252525;--th-bg:#252525;--th-color:#aaa;--link-color:#90caf9;--icon-color:#aaa;--footer-color:#777;\x7d" ++
  "body\x7bfont-family:system-ui,-apple-system,BlinkMacSystemFont,\"Segoe UI\",Roboto,Oxygen,Ubuntu,Cantarell,sans-serif;margin:0;padding:20px;color:var(--text-color);background-color:var(--bg-color);transition:background-color 0.3s ease;\x7d" ++
  ".container\x7bmax-width:1000px;margin:0 auto;background-color:var(--container-bg);border-radius:8px;box-shadow:0 2px 10px rgba(0,0,0,0.05);padding:20px;transition:background-color 0.3s ease;\x7d" ++
  ".header\x7bdisplay:flex;justify-content:space-between;align-items:center;margin-bottom:20px;padding-bottom:10px;border-bottom:1px solid var(--border-color);\x7d" ++
  "h1\x7bcolor:var(--header-color);font-size:24px;margin:0;\x7d" ++
  ".theme-toggle\x7bbackground:none;border:none;cursor:pointer;display:flex;align-items:center;font-size:14px;color:var(--text-color);padding:5px 10px;border-radius:4px;background-color:var(--hover-color);\x7d" ++
  ".theme-toggle:hover\x7bopacity:0.9;\x7d" ++
  ".theme-icon\x7bfont-size:16px;margin-right:5px;\x7d" ++
  "table\x7bwidth:100%;border-collapse:collapse;\x7d" ++
  "th\x7btext-align:left;padding:12px 15px;background-color:var(--th-bg);font-weight:500;color:var(--th-color);border-bottom:2px solid var(--border-color);\x7d" ++
  "td\x7bpadding:10px 15px;border-bottom:1px solid var(--border-color);\x7d" ++
  "tr:hover\x7bbackground-color:var(--hover-color);\x7d" ++
  "a\x7bcolor:var(--link-color);text-decoration:none;\x7d" ++
  "a:hover\x7btext-decoration:underline;\x7d" ++
  ".parent\x7bmargin-bottom:15px;display:inline-block;\x7d" ++
  ".icon\x7bmargin-right:5px;color:var(--icon-color);\x7d" ++
  ".size\x7bcolor:var(--th-color);white-space:nowrap;\x7d" ++
  ".date\x7bcolor:var(--th-color);white-space:nowrap;\x7d" ++
  ".footer\x7bmargin-top:20px;font-size:12px;color:var(--footer-color);text-align:center;\x7d" ++
  "</style>" ++
  "<script>" ++
  "function toggleTheme()\x7b" ++
  "  document.body.classList.toggle(\x27dark-mode\x27);" ++
  "  localStorage.setItem(\x27darkMode\x27,document.body.classList.contains(\x27dark-mode\x27));" ++
  "  updateToggleText();" ++
  "\x7d" ++
  "function updateToggleText()\x7b" ++
  "  const isDark=document.body.classList.contains(\x27dark-mode\x27);" ++
  "  const toggle=document.getElementById(\x27theme-toggle\x27);" ++
  "  if(toggle) toggle.innerHTML=isDark?\x27<span class=\"theme-icon\">☀️</span> Light Mode\x27:\x27<span class=\"theme-icon\">🌙</span> Dark Mode\x27;" ++
  "\x7d" ++
  "window.onload=function()\x7b" ++
  "  const prefersDark=window.matchMedia&&window.matchMedia(\x27(prefers-color-scheme:dark)\x27).matches;" ++
  "  const storedTheme=localStorage.getItem(\x27darkMode\x27);" ++
  "  if(storedTheme===\x27true\x27)\x7b" ++
  "    document.body.classList.add(\x27dark-mode\x27);" ++
  "  \x7delse if(storedTheme===null&&prefersDark)\x7b" ++
  "    document.body.classList.add(\x27dark-mode\x27);" ++
  "  \x7d" ++
  "  updateToggleText();" ++
  "  document.getElementById(\x27theme-toggle\x27).addEventListener(\x27click\x27,toggleTheme);" ++
  "\x7d;" ++
  "</script>" ++
  "</head>" ++
  "<body>" ++
  "<div class=\"container\">" ++
  "<div class=\"header\">" ++
  "<h1>Directory: "

/-- Template text after the second `url_path` splice up to the optional
parent link: lines 420-422. -/
def listingPre3 : String :=
  "</h1>" ++
  "<button id=\"theme-toggle\" class=\"theme-toggle\" type=\"button\"><span class=\"theme-icon\">🌙</span> Dark Mode</button>" ++
  "</div>"

/-- The parent-directory link block appended when the display path is not
the served root (line 426). -/
def parentLinkBlock : String :=
  "<div class=\"parent\"><a href=\"..\"><span class=\"icon\">⬆️</span> Parent Directory</a></div>"

/-- The table opening and column headers (line 429). -/
def tableHeadRow : String :=
  "<table><tr><th>Name</th><th>Size</th><th>Last Modified</th></tr>"

/-- Closing template text appended after the rows (lines 446-448). -/
def listingSuffix : String :=
  "</table>" ++
  "<div class=\"footer\">Powered by httpfileserv</div>" ++
  "</div></body></html>"

/-- Buffer contents built by send_directory_listing before the readdir loop
runs: the page prefix with the display path spliced in twice and the
parent-directory block present exactly when `url_path` differs from `/`
(`strcmp(url_path, "/") != 0`). -/
def listingPrefix (url_path : List Char) : List Char :=
  listingPre1.toList ++ url_path ++ listingPre2.toList ++ url_path ++
    listingPre3.toList ++
    (if url_path = ("/").toList then [] else parentLinkBlock.toList) ++
    tableHeadRow.toList

/-- Wire bytes of `send_directory_listing`: a failed initial
`malloc(BUFFER_SIZE * 16)` (oracle `initAllocOk = false`) sends 500;
a nonzero return from `platform_list_directory` sends 500; otherwise the
template suffix is appended and a 200 response is sent whose
`Content-Length` is the final buffer length — header and body go out in two
`send` calls, so the wire bytes are their concatenation. -/
def send_directory_listing (initAllocOk openOk : Bool) (allocOk : Nat → Bool)
    (entries : List DirEntry) (url_path : List Char) : List Char :=
  if initAllocOk = false then wire500
  else
    let d0 : DirListingData :=
      ⟨listingPrefix url_path, (listingPrefix url_path).length, BUFFER_SIZE * 16⟩
    let pr := platform_list_directory openOk allocOk entries d0
    if pr.2 ≠ 0 then wire500
    else
      let html := pr.1.listing ++ listingSuffix.toList
      (httpHeader 200 ("OK").toList ("text/html").toList html.length).take
          (BUFFER_SIZE - 1) ++ html

/-- Concatenation of the rows the readdir loop appends for a list of
entries when every (re)allocation succeeds, skipping the `.` and `..`
pseudo-entries; used to state what a complete listing contains. -/
def rowsHtml : List DirEntry → List Char
  | [] => []
  | e :: rest =>
    if e.name = (".").toList ∨ e.name = ("..").toList then rowsHtml rest
    else formatEntryRow e ++ rowsHtml rest

/-- Body of the 200 listing response in a run where every allocation
succeeds and the directory opens: the buffer the loop produced followed by
the template suffix. -/
def listingBody (url_path : List Char) (entries : List DirEntry) : List Char :=
  (platform_list_directory true (fun _ => true) entries
      ⟨listingPrefix url_path, (listingPrefix url_path).length,
        BUFFER_SIZE * 16⟩).1.listing ++ listingSuffix.toList

/-! ## A tail-recursive substring check (proof tool, not from the source) -/

/-- Boolean prefix test, by simultaneous recursion. -/
def startsWith : List Char → List Char → Bool
  | [], _ => true
  | _ :: _, [] => false
  | a :: p, b :: l => if a = b then startsWith p l else false

/-- Boolean substring test: scan every suffix for a prefix match; the
recursion is a tail call, so concrete evaluation needs constant stack. -/
def containsSub (pat : List Char) : List Char → Bool
  | [] => startsWith pat []
  | b :: l => if startsWith pat (b :: l) then true else containsSub pat l

/-! ## Lemmas about the sanitization loop -/

theorem removeFirstDotDot_length : ∀ (l : List Char), hasDotDot l = true →
    (removeFirstDotDot l).length + 2 = l.length
  | [], h => by simp [hasDotDot] at h
  | [a], h => by simp [hasDotDot] at h
  | a :: b :: rest, h => by
    by_cases hab : a = '.' ∧ b = '.'
    · simp [removeFirstDotDot, hab]
    · have h' : hasDotDot (b :: rest) = true := by simpa [hasDotDot, hab] using h
      have ih := removeFirstDotDot_length (b :: rest) h'
      simp only [removeFirstDotDot, if_neg hab, List.length_cons]
      simp at ih ⊢
      omega

theorem infix_of_hasDotDot : ∀ (l : List Char), hasDotDot l = true →
    ['.', '.'] <:+: l
  | [], h => by simp [hasDotDot] at h
  | [a], h => by simp [hasDotDot] at h
  | a :: b :: rest, h => by
    by_cases hab : a = '.' ∧ b = '.'
    · exact ⟨[], rest, by simp [hab.1, hab.2]⟩
    · have h' : hasDotDot (b :: rest) = true := by simpa [hasDotDot, hab] using h
      obtain ⟨s, t, hst⟩ := infix_of_hasDotDot (b :: rest) h'
      exact ⟨a :: s, t, by simp only [List.cons_append]; rw [hst]⟩

theorem hasDotDot_append_dots : ∀ (s t : List Char),
    hasDotDot (s ++ '.' :: '.' :: t) = true
  | [], t => by simp [hasDotDot]
  | [a], t => by
    by_cases ha : a = '.' ∧ ('.' : Char) = '.' <;>
      simp [hasDotDot, ha]
  | a :: b :: s', t => by
    have ih := hasDotDot_append_dots (b :: s') t
    simp only [List.cons_append] at ih ⊢
    by_cases hab : a = '.' ∧ b = '.' <;> simp [hasDotDot, hab, ih]

theorem hasDotDot_iff_occurs (l : List Char) :
    hasDotDot l = true ↔ ['.', '.'] <:+: l := by
  constructor
  · exact infix_of_hasDotDot l
  · rintro ⟨s, t, hst⟩
    rw [← hst, List.append_assoc]
    exact hasDotDot_append_dots s t

theorem hasDotDot_append_single : ∀ (l : List Char) (c : Char), c ≠ '.' →
    hasDotDot (l ++ [c]) = hasDotDot l
  | [], c, hc => by simp [hasDotDot]
  | [a], c, hc => by simp [hasDotDot, hc]
  | a :: b :: rest, c, hc => by
    have ih := hasDotDot_append_single (b :: rest) c hc
    simp only [List.cons_append] at ih ⊢
    by_cases hab : a = '.' ∧ b = '.' <;> simp [hasDotDot, hab, ih]

theorem lastNotDot_append_single : ∀ (l : List Char) (c : Char),
    lastNotDot (l ++ [c]) = decide (c ≠ '.')
  | [], c => by simp [lastNotDot]
  | [a], c => by simp [lastNotDot]
  | a :: b :: rest, c => by
    have ih := lastNotDot_append_single (b :: rest) c
    simp only [List.cons_append] at ih ⊢
    simpa [lastNotDot] using ih

theorem removeFirstDotDot_append : ∀ (p : List Char), hasDotDot p = false →
    lastNotDot p = true → ∀ (s : List Char),
    removeFirstDotDot (p ++ s) = p ++ removeFirstDotDot s
  | [], _, _, s => by simp
  | [a], hp, hl, s => by
    have ha : a ≠ '.' := by simpa [lastNotDot] using hl
    cases s with
    | nil => simp [removeFirstDotDot]
    | cons b s' => simp [removeFirstDotDot, ha]
  | a :: b :: p', hp, hl, s => by
    have hab : ¬ (a = '.' ∧ b = '.') := by
      intro hcontra
      simp [hasDotDot, hcontra] at hp
    have hp' : hasDotDot (b :: p') = false := by simpa [hasDotDot, hab] using hp
    have hl' : lastNotDot (b :: p') = true := by simpa [lastNotDot] using hl
    have ih := removeFirstDotDot_append (b :: p') hp' hl' s
    simp only [List.cons_append] at ih ⊢
    simp [removeFirstDotDot, hab, ih]

theorem hasDotDot_append : ∀ (p : List Char), hasDotDot p = false →
    lastNotDot p = true → ∀ (s : List Char),
    hasDotDot (p ++ s) = hasDotDot s
  | [], _, _, s => by simp
  | [a], hp, hl, s => by
    have ha : a ≠ '.' := by simpa [lastNotDot] using hl
    cases s with
    | nil => simp [hasDotDot]
    | cons b s' => simp [hasDotDot, ha]
  | a :: b :: p', hp, hl, s => by
    have hab : ¬ (a = '.' ∧ b = '.') := by
      intro hcontra
      simp [hasDotDot, hcontra] at hp
    have hp' : hasDotDot (b :: p') = false := by simpa [hasDotDot, hab] using hp
    have hl' : lastNotDot (b :: p') = true := by simpa [lastNotDot] using hl
    have ih := hasDotDot_append (b :: p') hp' hl' s
    simp only [List.cons_append] at ih ⊢
    simp [hasDotDot, hab, ih]

theorem sanitizeFuel_nil : ∀ (n : Nat), sanitizeFuel n [] = []
  | 0 => rfl
  | n + 1 => by simp [sanitizeFuel, hasDotDot]

theorem sanitizeFuel_noDotDot : ∀ (n : Nat) (l : List Char), l.length ≤ 2 * n →
    hasDotDot (sanitizeFuel n l) = false
  | 0, l, h => by
    have hl : l = [] := List.length_eq_zero.mp (by omega)
    subst hl
    rfl
  | n + 1, l, h => by
    by_cases hd : hasDotDot l = true
    · have hlen := removeFirstDotDot_length l hd
      have hle : (removeFirstDotDot l).length ≤ 2 * n := by omega
      simpa [sanitizeFuel, hd] using
        sanitizeFuel_noDotDot n (removeFirstDotDot l) hle
    · have hd' : hasDotDot l = false := by simpa using hd
      simp [sanitizeFuel, hd']

theorem sanitizeFuel_mono : ∀ (n m : Nat) (l : List Char), l.length ≤ 2 * n →
    n ≤ m → sanitizeFuel m l = sanitizeFuel n l
  | 0, m, l, h, _ => by
    have hl : l = [] := List.length_eq_zero.mp (by omega)
    subst hl
    simp [sanitizeFuel_nil]
  | n + 1, m, l, h, hnm => by
    obtain ⟨m', rfl⟩ : ∃ m', m = m' + 1 := ⟨m - 1, by omega⟩
    by_cases hd : hasDotDot l = true
    · have hlen := removeFirstDotDot_length l hd
      have ih := sanitizeFuel_mono n m' (removeFirstDotDot l) (by omega) (by omega)
      simp [sanitizeFuel, hd, ih]
    · have hd' : hasDotDot l = false := by simpa using hd
      simp [sanitizeFuel, hd']

theorem sanitizeFuel_append : ∀ (n : Nat) (p : List Char), hasDotDot p = false →
    lastNotDot p = true → ∀ (s : List Char),
    sanitizeFuel n (p ++ s) = p ++ sanitizeFuel n s
  | 0, p, _, _, s => rfl
  | n + 1, p, hp, hl, s => by
    by_cases hd : hasDotDot s = true
    · have hps : hasDotDot (p ++ s) = true := by
        rw [hasDotDot_append p hp hl]; exact hd
      have hrm := removeFirstDotDot_append p hp hl s
      have ih := sanitizeFuel_append n p hp hl (removeFirstDotDot s)
      simp [sanitizeFuel, hps, hd, hrm, ih]
    · have hd' : hasDotDot s = false := by simpa using hd
      have hps : hasDotDot (p ++ s) = false := by
        rw [hasDotDot_append p hp hl]; exact hd'
      simp [sanitizeFuel, hps, hd']

theorem sanitizePath_noDotDot (l : List Char) :
    hasDotDot (sanitizePath l) = false :=
  sanitizeFuel_noDotDot l.length l (by omega)

theorem sanitizePath_append (p s : List Char) (hp : hasDotDot p = false)
    (hl : lastNotDot p = true) :
    sanitizePath (p ++ s) = p ++ sanitizePath s := by
  unfold sanitizePath
  rw [List.length_append, sanitizeFuel_append (p.length + s.length) p hp hl s,
    sanitizeFuel_mono s.length (p.length + s.length) s (by omega) (by omega)]

/-! ## Claim C1 -/

/-- C1: for every request target, the decoded target joined to the served
root and run through the traversal-sanitization loop contains no occurrence
of `..`, and — provided the served root itself contains no `..` (and, a side
condition of the fixed C path buffer, root plus separator fit in it) — the
result is lexically inside the served root: the root itself or the root
followed by the separator and a suffix. -/
theorem c1_traversal_confinement (base target : List Char)
    (hroot : ¬ (['.', '.'] <:+: base))
    (hfit : base.length + 1 ≤ MAX_PATH_SIZE - 1) :
    ¬ (['.', '.'] <:+: resolvePath base (urlDecodeList target)) ∧
      (resolvePath base (urlDecodeList target) = base ∨
        ∃ t, resolvePath base (urlDecodeList target) = base ++ PATH_SEPARATOR :: t) := by
  have hb : hasDotDot base = false := by
    cases hdd : hasDotDot base with
    | false => rfl
    | true => exact absurd ((hasDotDot_iff_occurs base).mp hdd) hroot
  have hsep : hasDotDot (base ++ ['/']) = false := by
    rw [hasDotDot_append_single base '/' (by decide)]; exact hb
  have hlast : lastNotDot (base ++ ['/']) = true := by
    rw [lastNotDot_append_single]; decide
  have hsplit : rawPath base (urlDecodeList target) =
      (base ++ ['/']) ++ (requestPath (urlDecodeList target)).take
        (MAX_PATH_SIZE - 1 - (base.length + 1)) := by
    unfold rawPath
    rw [show base ++ PATH_SEPARATOR :: requestPath (urlDecodeList target) =
        (base ++ ['/']) ++ requestPath (urlDecodeList target) by
      simp [PATH_SEPARATOR]]
    rw [List.take_append_eq_append_take,
      List.take_of_length_le (by simpa using hfit)]
    simp [List.length_append]
  have hres : resolvePath base (urlDecodeList target) =
      (base ++ ['/']) ++ sanitizePath ((requestPath (urlDecodeList target)).take
        (MAX_PATH_SIZE - 1 - (base.length + 1))) := by
    unfold resolvePath
    rw [hsplit, sanitizePath_append _ _ hsep hlast]
  constructor
  · intro hinf
    have h1 := (hasDotDot_iff_occurs (resolvePath base (urlDecodeList target))).mpr hinf
    have h2 : hasDotDot (resolvePath base (urlDecodeList target)) = false := by
      unfold resolvePath
      exact sanitizePath_noDotDot _
    rw [h1] at h2
    cases h2
  · refine Or.inr ⟨sanitizePath ((requestPath (urlDecodeList target)).take
      (MAX_PATH_SIZE - 1 - (base.length + 1))), ?_⟩
    rw [hres]
    simp [PATH_SEPARATOR, List.append_assoc]

/-- Witness for C1 at the spec's concrete example: served root `/srv/www`,
request target `/../../etc/passwd`; the resolved path also differs from
`/etc/passwd`. -/
theorem c1_traversal_confinement_witness :
    (¬ (['.', '.'] <:+: ("/srv/www").toList)) ∧
      ("/srv/www").toList.length + 1 ≤ MAX_PATH_SIZE - 1 ∧
      ((¬ (['.', '.'] <:+: resolvePath ("/srv/www").toList
            (urlDecodeList ("/../../etc/passwd").toList))) ∧
        (resolvePath ("/srv/www").toList (urlDecodeList ("/../../etc/passwd").toList) =
            ("/srv/www").toList ∨
          ∃ t, resolvePath ("/srv/www").toList
              (urlDecodeList ("/../../etc/passwd").toList) =
            ("/srv/www").toList ++ PATH_SEPARATOR :: t)) ∧
      resolvePath ("/srv/www").toList (urlDecodeList ("/../../etc/passwd").toList) ≠
        ("/etc/passwd").toList :=
  ⟨by decide, by decide,
    c1_traversal_confinement ("/srv/www").toList ("/../../etc/passwd").toList
      (by decide) (by decide),
    by decide⟩

/-! ## Claim C3 -/

/-- C3 counterexample: resolving the target `/` against served root
`/srv/www` yields `/srv/www/` — the separator is always inserted by the
`"%s%c%s"` format — which is not the served root string itself. -/
theorem c3_root_resolution_counterexample :
    resolvePath ("/srv/www").toList ("/").toList = ("/srv/www/").toList ∧
      ("/srv/www/").toList ≠ ("/srv/www").toList := by decide

/-- C3 amended: for every target beginning with `/` (the root `/` included),
the stripped remainder is everything after that leading slash, and the
joined path is the served root followed by the platform separator and that
remainder — so `/` maps to the root followed by a trailing separator, not to
the root itself.  The length hypothesis rules out `snprintf` truncation by
the fixed `MAX_PATH_SIZE` buffer. -/
theorem c3_resolution_amended (base rest : List Char)
    (hfit : base.length + 1 + rest.length ≤ MAX_PATH_SIZE - 1) :
    requestPath ('/' :: rest) = rest ∧
      rawPath base ('/' :: rest) = base ++ PATH_SEPARATOR :: rest := by
  have hreq : requestPath ('/' :: rest) = rest := by
    by_cases h : ('/' :: rest : List Char) = ['/']
    · have hr : rest = [] := by simpa using h
      simp [requestPath, h, hr]
    · simp [requestPath, h]
  refine ⟨hreq, ?_⟩
  unfold rawPath
  rw [hreq, List.take_of_length_le]
  simp only [List.length_append, List.length_cons]
  omega

/-- Witness for the amended C3 at served root `/srv/www` and target
`/index.html`. -/
theorem c3_resolution_amended_witness :
    ("/srv/www").toList.length + 1 + ("index.html").toList.length ≤
        MAX_PATH_SIZE - 1 ∧
      (requestPath ('/' :: ("index.html").toList) = ("index.html").toList ∧
        rawPath ("/srv/www").toList ('/' :: ("index.html").toList) =
          ("/srv/www").toList ++ PATH_SEPARATOR :: ("index.html").toList) :=
  ⟨by decide, c3_resolution_amended ("/srv/www").toList ("index.html").toList (by decide)⟩

/-! ## Claim C9 -/

/-- C9: the sanitization loop terminates on every input: each iteration
removes the leftmost `..`, shortening the string by exactly two characters,
and the resulting total function leaves no `..` occurrence. -/
theorem c9_sanitize_terminates (l : List Char) (h : hasDotDot l = true) :
    (removeFirstDotDot l).length + 2 = l.length ∧
      hasDotDot (sanitizePath l) = false :=
  ⟨removeFirstDotDot_length l h, sanitizePath_noDotDot l⟩

/-- Witness for C9 at the input `....`, where each removal creates a new
`..` occurrence; sanitization still terminates, with the empty result. -/
theorem c9_sanitize_terminates_witness :
    hasDotDot ("....").toList = true ∧
      ((removeFirstDotDot ("....").toList).length + 2 = ("....").toList.length ∧
        hasDotDot (sanitizePath ("....").toList) = false) ∧
      sanitizePath ("....").toList = [] :=
  ⟨by decide, c9_sanitize_terminates ("....").toList (by decide), by decide⟩

/-! ## Claim C10 -/

theorem urlDecodeList_length : ∀ (s : List Char),
    (urlDecodeList s).length ≤ s.length
  | [] => by simp [urlDecodeList]
  | [c] => by simp [urlDecodeList]
  | [c, d] => by simp [urlDecodeList]
  | c :: c1 :: c2 :: rest => by
    have ih1 := urlDecodeList_length rest
    have ih2 := urlDecodeList_length (c1 :: c2 :: rest)
    simp at ih2
    by_cases hc : c = '%' <;> simp [urlDecodeList, hc] <;> omega

/-- C10, the defined behavior: url_decode never lengthens its input — each
loop iteration writes exactly one output byte while consuming one or three
input bytes — so the `malloc(len + 1)` buffer is never overrun; a NULL
input gives NULL and a non-null input always gives the decoded string.
The claim's remaining part, that a failed allocation also yields NULL, is
the recorded divergence: the code has no null check after `malloc` and a
failed allocation is a null-pointer write, never a NULL return. -/
theorem c10_url_decode_length (s : List Char) :
    (urlDecodeList s).length ≤ s.length ∧
      url_decode none = none ∧
      url_decode (some s) = some (urlDecodeList s) :=
  ⟨urlDecodeList_length s, rfl, rfl⟩

/-! ## Claim C4 -/

/-- C4: whenever `sscanf` fails to extract exactly two whitespace-delimited
tokens from the received buffer, the handler's one and only response is the
400 Bad Request response. -/
theorem c4_bad_request_400 (fs : FileSystem)
    (base buffer : List Char) (h : parseRequestLine buffer = none) :
    handle_connection fs base buffer = ServedResponse.resp400 := by
  unfold handle_connection
  rw [h]

/-- Witness for C4 at a request consisting of a single token and no target. -/
theorem c4_bad_request_400_witness :
    parseRequestLine ("GET\r\n\r\n").toList = none ∧
      handle_connection ⟨fun _ => none⟩ [] ("GET\r\n\r\n").toList =
        ServedResponse.resp400 :=
  ⟨by decide,
    c4_bad_request_400 ⟨fun _ => none⟩ [] ("GET\r\n\r\n").toList (by decide)⟩

/-! ## Claim C5 -/

/-- C5 counterexample: the response is formatted by `snprintf` into a
`BUFFER_SIZE` buffer, so for a reason phrase long enough that the header
exceeds 1023 bytes the emitted bytes are a truncated header, not the exact
header-plus-body shape the claim states for every reason phrase. -/
theorem c5_response_format_counterexample :
    send_http_status 200 (List.replicate 1100 'a') ("text/html").toList [] ≠
      httpHeader 200 (List.replicate 1100 'a') ("text/html").toList
        ([] : List Char).length ++ ([] : List Char) := by decide

/-- C5 amended: provided the assembled header fits in the
`BUFFER_SIZE - 1` bytes `snprintf` can write — true for every status line
this server emits — the wire bytes are exactly the status line,
`Content-Type`, `Content-Length` equal to the body's byte length and
`Connection: close` in that fixed order, the blank separator line, then the
body; no other header is emitted. -/
theorem c5_response_format (code : Nat) (reason ctype body : List Char)
    (hfit : (httpHeader code reason ctype body.length).length ≤ BUFFER_SIZE - 1) :
    send_http_status code reason ctype body =
      httpHeader code reason ctype body.length ++ body := by
  unfold send_http_status
  rw [List.take_of_length_le hfit]

/-- Witness for the amended C5 at the canned 404 response. -/
theorem c5_response_format_witness :
    (httpHeader 404 ("Not Found").toList ("text/html").toList
        body404.toList.length).length ≤ BUFFER_SIZE - 1 ∧
      send_http_status 404 ("Not Found").toList ("text/html").toList body404.toList =
        httpHeader 404 ("Not Found").toList ("text/html").toList
          body404.toList.length ++ body404.toList :=
  ⟨by decide,
    c5_response_format 404 ("Not Found").toList ("text/html").toList body404.toList
      (by decide)⟩

/-! ## Claim C6 -/

/-- C6 counterexample: at a concrete listing state of size 16380 and
capacity 16384, appending a row of length 138 triggers growth and the code
sets the new capacity to `16384 * 2 + 138 = 32906`, whereas
`max(needed, 2 × capacity) = max(16519, 32768) = 32768`. -/
theorem c6_capacity_growth_counterexample :
    ((dir_listing_callback true
          ⟨("a.txt").toList, false, 10, ("2024-01-01 00:00:00").toList⟩
          ⟨List.replicate 16380 'x', 16380, 16384⟩).map
        (fun x => x.listing_capacity)) ≠
      some (max (16380 + (formatEntryRow
            ⟨("a.txt").toList, false, 10, ("2024-01-01 00:00:00").toList⟩).length + 1)
        (2 * 16384)) := by decide

/-- C6 amended: when appending an entry row would exceed the capacity, the
new capacity is `2 × current capacity + entry length` (the code's
`listing_capacity * 2 + entry_len`), which is at least the needed size
whenever the previous content and its terminator fit the old capacity, but
differs from `max(needed, 2 × current)`. -/
theorem c6_capacity_growth (e : DirEntry) (d : DirListingData)
    (htrig : d.listing_size + (formatEntryRow e).length + 1 > d.listing_capacity) :
    (dir_listing_callback true e d).map (fun x => x.listing_capacity) =
      some (d.listing_capacity * 2 + (formatEntryRow e).length) ∧
      (d.listing_size + 1 ≤ d.listing_capacity →
        d.listing_size + (formatEntryRow e).length + 1 ≤
          d.listing_capacity * 2 + (formatEntryRow e).length) := by
  constructor
  · simp [dir_listing_callback, htrig]
  · intro hsz
    omega

/-- Witness for the amended C6 at the counterexample's state and entry. -/
theorem c6_capacity_growth_witness :
    ((⟨List.replicate 16380 'x', 16380, 16384⟩ : DirListingData).listing_size +
        (formatEntryRow ⟨("a.txt").toList, false, 10,
          ("2024-01-01 00:00:00").toList⟩).length + 1 >
        (⟨List.replicate 16380 'x', 16380, 16384⟩ : DirListingData).listing_capacity) ∧
      ((dir_listing_callback true
            ⟨("a.txt").toList, false, 10, ("2024-01-01 00:00:00").toList⟩
            ⟨List.replicate 16380 'x', 16380, 16384⟩).map
          (fun x => x.listing_capacity) =
        some ((⟨List.replicate 16380 'x', 16380, 16384⟩ : DirListingData).listing_capacity * 2 +
          (formatEntryRow ⟨("a.txt").toList, false, 10,
            ("2024-01-01 00:00:00").toList⟩).length) ∧
        ((⟨List.replicate 16380 'x', 16380, 16384⟩ : DirListingData).listing_size + 1 ≤
            (⟨List.replicate 16380 'x', 16380, 16384⟩ : DirListingData).listing_capacity →
          (⟨List.replicate 16380 'x', 16380, 16384⟩ : DirListingData).listing_size +
              (formatEntryRow ⟨("a.txt").toList, false, 10,
                ("2024-01-01 00:00:00").toList⟩).length + 1 ≤
            (⟨List.replicate 16380 'x', 16380, 16384⟩ : DirListingData).listing_capacity * 2 +
              (formatEntryRow ⟨("a.txt").toList, false, 10,
                ("2024-01-01 00:00:00").toList⟩).length)) :=
  ⟨by decide,
    c6_capacity_growth
      ⟨("a.txt").toList, false, 10, ("2024-01-01 00:00:00").toList⟩
      ⟨List.replicate 16380 'x', 16380, 16384⟩ (by decide)⟩

/-! ## Claim C7 -/

/-- C7: the size column renders the raw byte size with binary (1024-based)
units and one decimal place, choosing the first unit from bytes upward
whose scaled value is below 1024 (capped at GB) — the code's branch
structure refines the spec's unit-selection rule — and in particular
500 bytes render as `500 B`, 2048 bytes as `2.0 KB` and 3·1024·1024 bytes
as `3.0 MB`. -/
theorem c7_size_formatting :
    (∀ s, formatSize s = formatSizeSpec s) ∧
      formatSize 500 = ("500 B").toList ∧
      formatSize 2048 = ("2.0 KB").toList ∧
      formatSize (3 * 1024 * 1024) = ("3.0 MB").toList := by
  refine ⟨fun s => ?_, by decide, by decide, by decide⟩
  have hr : List.range 4 = [0, 1, 2, 3] := rfl
  have e0 : (1024 : Nat) ^ (0 + 1) = 1024 := by norm_num
  have e1 : (1024 : Nat) ^ (1 + 1) = 1024 * 1024 := by norm_num
  have e2 : (1024 : Nat) ^ (2 + 1) = 1024 * 1024 * 1024 := by norm_num
  by_cases h0 : s < 1024
  · simp [formatSize, formatSizeSpec, hr, List.find?, e0, h0]
  · by_cases h1 : s < 1024 * 1024
    · simp [formatSize, formatSizeSpec, hr, List.find?, e0, e1, h0, h1]
    · by_cases h2 : s < 1024 * 1024 * 1024
      · simp [formatSize, formatSizeSpec, hr, List.find?, e0, e1, e2, h0, h1, h2]
      · by_cases h3 : s < 1099511627776
        · simp [formatSize, formatSizeSpec, hr, List.find?, e0, e1, e2, h0, h1, h2, h3]
        · simp [formatSize, formatSizeSpec, hr, List.find?, e0, e1, e2, h0, h1, h2, h3]

/-! ## Lemmas about the listing loop -/

theorem platform_list_directory_go_rc : ∀ (allocOk : Nat → Bool) (k : Nat)
    (entries : List DirEntry) (d : DirListingData),
    (platform_list_directory_go allocOk k entries d).2 = 0
  | _, _, [], _ => rfl
  | allocOk, k, e :: rest, d => by
    by_cases hskip : e.name = (".").toList ∨ e.name = ("..").toList
    · have ih := platform_list_directory_go_rc allocOk k rest d
      simp only [platform_list_directory_go]
      rw [if_pos hskip]
      exact ih
    · simp only [platform_list_directory_go]
      rw [if_neg hskip]
      cases hcb : dir_listing_callback (allocOk k) e d with
      | none => simp [hcb]
      | some d' =>
        have ih := platform_list_directory_go_rc allocOk (k + 1) rest d'
        simp [hcb, ih]

theorem dir_listing_callback_allOk (e : DirEntry) (d : DirListingData) :
    ∃ cap, dir_listing_callback true e d =
      some ⟨d.listing ++ formatEntryRow e,
        d.listing_size + (formatEntryRow e).length, cap⟩ := by
  unfold dir_listing_callback
  by_cases htrig :
      d.listing_size + (formatEntryRow e).length + 1 > d.listing_capacity
  · exact ⟨d.listing_capacity * 2 + (formatEntryRow e).length, by simp [htrig]⟩
  · exact ⟨d.listing_capacity, by simp [htrig]⟩

theorem platform_list_directory_go_allOk : ∀ (k : Nat)
    (entries : List DirEntry) (d : DirListingData),
    (platform_list_directory_go (fun _ => true) k entries d).1.listing =
      d.listing ++ rowsHtml entries
  | k, [], d => by simp [platform_list_directory_go, rowsHtml]
  | k, e :: rest, d => by
    by_cases hskip : e.name = (".").toList ∨ e.name = ("..").toList
    · have ih := platform_list_directory_go_allOk k rest d
      simp only [platform_list_directory_go, rowsHtml]
      rw [if_pos hskip, if_pos hskip]
      exact ih
    · obtain ⟨cap, hcb⟩ := dir_listing_callback_allOk e d
      have ih := platform_list_directory_go_allOk (k + 1) rest
        ⟨d.listing ++ formatEntryRow e,
          d.listing_size + (formatEntryRow e).length, cap⟩
      simp only [platform_list_directory_go, rowsHtml]
      rw [if_neg hskip, if_neg hskip, hcb]
      simpa [List.append_assoc] using ih

theorem listingBody_eq (url : List Char) (entries : List DirEntry) :
    listingBody url entries =
      listingPrefix url ++ rowsHtml entries ++ listingSuffix.toList := by
  unfold listingBody platform_list_directory
  simp [platform_list_directory_go_allOk, List.append_assoc]

theorem header200_take12 (n : Nat) (tail : List Char) :
    ((httpHeader 200 ("OK").toList ("text/html").toList n).take (BUFFER_SIZE - 1) ++
        tail).take 12 = ("HTTP/1.1 200").toList := by
  have hhd : httpHeader 200 ("OK").toList ("text/html").toList n =
      ("HTTP/1.1 200 OK\r\nContent-Type: text/html\r\nContent-Length: ").toList ++
        (natDigits n ++ ("\r\nConnection: close\r\n\r\n").toList) := rfl
  have hP : (("HTTP/1.1 200 OK\r\nContent-Type: text/html\r\nContent-Length: ").toList).length
      = 58 := rfl
  rw [hhd, List.take_append_eq_append_take, List.take_take]
  have hmin : min 12 (BUFFER_SIZE - 1) = 12 := rfl
  rw [hmin, List.take_append_eq_append_take, hP]
  have hz : 12 - (((("HTTP/1.1 200 OK\r\nContent-Type: text/html\r\nContent-Length: ").toList ++
      (natDigits n ++ ("\r\nConnection: close\r\n\r\n").toList)).take
        (BUFFER_SIZE - 1)).length) = 0 := by
    rw [List.length_take, List.length_append, hP]
    simp [BUFFER_SIZE]
    omega
  rw [hz]
  simp

/-! ## Claim C2 -/

/-- C2 fails on the code: for every allocation-failure pattern of the
readdir loop — a mid-listing `realloc` failure included — the listing path
still sends a 200 response, never the 500 the claim requires, because
`platform_list_directory` returns 0 (success) when the callback aborts; and
at a concrete state whose next append overflows the buffer, a failing
`realloc` makes the loop stop with the entry's row missing from the buffer
while still reporting 0, so the 200 response carries a partial listing. -/
theorem c2_partial_listing_sent_with_200 :
    (∀ (allocOk : Nat → Bool) (entries : List DirEntry) (url : List Char),
        (send_directory_listing true true allocOk entries url).take 12 =
          ("HTTP/1.1 200").toList ∧
        send_directory_listing true true allocOk entries url ≠ wire500) ∧
      platform_list_directory true (fun _ => false)
          [⟨("a.txt").toList, false, 10, ("2024-01-01 00:00:00").toList⟩]
          ⟨List.replicate 16380 'x', 16380, 16384⟩ =
        (⟨List.replicate 16380 'x', 16380, 16384⟩, 0) := by
  constructor
  · intro allocOk entries url
    have hrc : (platform_list_directory true allocOk entries
        ⟨listingPrefix url, (listingPrefix url).length, BUFFER_SIZE * 16⟩).2 = 0 := by
      unfold platform_list_directory
      simp [platform_list_directory_go_rc]
    have h12 : (send_directory_listing true true allocOk entries url).take 12 =
        ("HTTP/1.1 200").toList := by
      unfold send_directory_listing
      simp only [Bool.true_eq_false, if_false, ite_false, hrc, ne_eq,
        not_true_eq_false, not_false_eq_true, if_neg, reduceIte]
      exact header200_take12 _ _
    refine ⟨h12, fun heq => ?_⟩
    have h500 := congrArg (List.take 12) heq
    rw [h12] at h500
    exact absurd h500 (by decide)
  · rfl

/-! ## Correctness of the substring check (proof tool for C8) -/

theorem startsWith_iff : ∀ (p l : List Char), startsWith p l = true ↔ p <+: l
  | [], l => by simp [startsWith]
  | a :: p, [] => by simp [startsWith, List.prefix_nil]
  | a :: p, b :: l => by
    have ih := startsWith_iff p l
    by_cases hab : a = b
    · subst hab
      simp [startsWith, ih, List.cons_prefix_cons]
    · simp [startsWith, hab, List.cons_prefix_cons]

theorem containsSub_iff : ∀ (pat l : List Char),
    containsSub pat l = true ↔ pat <:+: l
  | pat, [] => by
    simp [containsSub, startsWith_iff, List.prefix_nil, List.infix_nil]
  | pat, b :: l => by
    have ih := containsSub_iff pat l
    have hsw := startsWith_iff pat (b :: l)
    by_cases h : startsWith pat (b :: l) = true
    · simp only [containsSub, if_pos h, true_iff]
      obtain ⟨t, ht⟩ := hsw.mp h
      exact ⟨[], t, by simpa using ht⟩
    · have hnp : ¬ pat <+: b :: l := fun hc => h (hsw.mpr hc)
      simp only [containsSub, if_neg h]
      rw [ih, List.infix_cons_iff]
      tauto

/-! ## Claim C8 -/

/-- C8: the 200 listing response (all allocations succeeding) consists of
the fixed header and `listingBody`, the parent-directory link block is an
infix of the body whenever the display path is not `/`, and the body of the
root listing over the spec's example entries (`a.txt` and `sub`) does not
contain the block. -/
theorem c8_parent_link :
    (∀ (url : List Char) (entries : List DirEntry),
        send_directory_listing true true (fun _ => true) entries url =
          (httpHeader 200 ("OK").toList ("text/html").toList
              (listingBody url entries).length).take (BUFFER_SIZE - 1) ++
            listingBody url entries) ∧
      (∀ (url : List Char) (entries : List DirEntry), url ≠ ("/").toList →
        parentLinkBlock.toList <:+: listingBody url entries) ∧
      ¬ (parentLinkBlock.toList <:+: listingBody ("/").toList
          [⟨("a.txt").toList, false, 10, ("2024-01-01 00:00:00").toList⟩,
            ⟨("sub").toList, true, 0, ("2024-01-01 00:00:00").toList⟩]) := by
  refine ⟨?_, ?_, ?_⟩
  · intro url entries
    have hrc : (platform_list_directory true (fun _ => true) entries
        ⟨listingPrefix url, (listingPrefix url).length, BUFFER_SIZE * 16⟩).2 = 0 := by
      unfold platform_list_directory
      simp [platform_list_directory_go_rc]
    unfold send_directory_listing listingBody
    simp only [Bool.true_eq_false, if_false, ite_false, hrc, ne_eq,
      not_true_eq_false, not_false_eq_true, if_neg, reduceIte]
  · intro url entries hurl
    rw [listingBody_eq]
    unfold listingPrefix
    rw [if_neg hurl]
    refine ⟨listingPre1.toList ++ url ++ listingPre2.toList ++ url ++
        listingPre3.toList,
      tableHeadRow.toList ++ rowsHtml entries ++ listingSuffix.toList, ?_⟩
    simp [List.append_assoc]
  · intro hinf
    rw [listingBody_eq] at hinf
    have hb := (containsSub_iff parentLinkBlock.toList _).mpr hinf
    have hf : containsSub parentLinkBlock.toList (listingPrefix ("/").toList ++
        rowsHtml [⟨("a.txt").toList, false, 10, ("2024-01-01 00:00:00").toList⟩,
          ⟨("sub").toList, true, 0, ("2024-01-01 00:00:00").toList⟩] ++
        listingSuffix.toList) = false := by decide
    rw [hf] at hb
    exact Bool.noConfusion hb

/-- Witness for C8 at the spec's example: the listing for `/sub/` contains
the parent-directory link block. -/
theorem c8_parent_link_witness :
    ("/sub/").toList ≠ ("/").toList ∧
      parentLinkBlock.toList <:+: listingBody ("/sub/").toList
        [⟨("a.txt").toList, false, 10, ("2024-01-01 00:00:00").toList⟩,
          ⟨("sub").toList, true, 0, ("2024-01-01 00:00:00").toList⟩] :=
  ⟨by decide,
    c8_parent_link.2.1 ("/sub/").toList
      [⟨("a.txt").toList, false, 10, ("2024-01-01 00:00:00").toList⟩,
        ⟨("sub").toList, true, 0, ("2024-01-01 00:00:00").toList⟩]
      (by decide)⟩

end HttpFileServ
